import Mathlib

/-!
Shallow embedding of `gen_patrix.py` (tile-drop animation generator).

The Python program composites randomly chosen image tiles onto a shared
RGB canvas: a pool of `TileDropper` state machines each repeatedly drops a
tile at a column/row anchor, fading the five most recently dropped tiles
of its column through a fixed brightness curve, and the per-frame canvas
snapshots are encoded into a looping GIF.

Modelling conventions:
* pixels are `Nat` RGB triples; PIL's `ImageEnhance.Brightness(t).enhance(b)`
  is modelled with exact rational arithmetic (`scale`), since PIL's blend
  computes `b * pixel` in float and truncates to an integer;
* Python exceptions are modelled with `Except String`;
* the module-global `random` generator is modelled as an explicit stream of
  naturals (`RNG`) threaded through every operation that draws from it;
  `random.choice` picks the element indexed by the next draw modulo the
  length, and raises on an empty sequence exactly as CPython does;
* file I/O (tile loading, output directory creation, GIF writing) is outside
  the embedding: the tile list is a parameter of `run`, and the GIF step is
  modelled up to its indexing of the frame list.
-/

namespace GenPatrix

/-- An RGB pixel value. -/
abbrev Pix := Nat × Nat × Nat

/-- An immutable raster tile (a PIL image in the source). -/
structure Tile where
  width : Nat
  height : Nat
  pix : List (List Pix)
  deriving DecidableEq

/-- The mutable RGB canvas (`Image.new('RGB', (width, height))`). -/
structure Canvas where
  width : Nat
  height : Nat
  pix : List (List Pix)
  deriving DecidableEq

/-- `Image.new('RGB', (w, h))`: black-filled canvas. -/
def Canvas.new (w h : Nat) : Canvas :=
  ⟨w, h, List.replicate h (List.replicate w (0, 0, 0))⟩

/-- One colour channel of `ImageEnhance.Brightness(...).enhance(b)`:
PIL blends the image with black in float arithmetic and truncates the
result to an integer, i.e. the channel value becomes `⌊b * v⌋` (the
brightness factors in this program are non-negative); computed as
`(b.num * v) fdiv b.den`, which equals the floor since `b.den > 0`. -/
def scale (b : Rat) (v : Nat) : Nat := ((b.num * v).fdiv b.den).toNat

/-- `ImageEnhance.Brightness(t).enhance(b)`: every pixel scaled by `b`. -/
def enhance (b : Rat) (t : Tile) : Tile :=
  { t with pix := t.pix.map (fun row => row.map
      (fun p => (scale b p.1, scale b p.2.1, scale b p.2.2))) }

/-- `img.paste(tile, box=(x, y))`: overwrite the destination rectangle,
silently clipping the parts that fall outside the canvas. -/
def Canvas.paste (c : Canvas) (t : Tile) (x y : Int) : Canvas :=
  { c with pix := c.pix.mapIdx (fun j row => row.mapIdx (fun i p =>
      let dx : Int := (i : Int) - x
      let dy : Int := (j : Int) - y
      if 0 ≤ dx ∧ dx < (t.width : Int) ∧ 0 ≤ dy ∧ dy < (t.height : Int) then
        (t.pix.getD dy.toNat []).getD dx.toNat p
      else p)) }

/-- Read the pixel at column `x`, row `y` (black when out of range). -/
def Canvas.getPix (c : Canvas) (x y : Nat) : Pix :=
  (c.pix.getD y []).getD x (0, 0, 0)

/-- `0.2` as an exact rational in reduced constructor form (so that the
kernel can evaluate the brightness arithmetic; `ratPointTwo_eq` checks it
equals the source's decimal literal). -/
def ratPointTwo : Rat := ⟨1, 5, by decide, by decide⟩

/-- `0.4` as an exact rational in reduced constructor form. -/
def ratPointFour : Rat := ⟨2, 5, by decide, by decide⟩

/-- `0.6` as an exact rational in reduced constructor form. -/
def ratPointSix : Rat := ⟨3, 5, by decide, by decide⟩

/-- `0.8` as an exact rational in reduced constructor form. -/
def ratPointEight : Rat := ⟨4, 5, by decide, by decide⟩

/-- The seeded pseudo-random source (Python's module-global `random`),
modelled as a stream of naturals and a position. -/
structure RNG where
  seq : Nat → Nat
  pos : Nat

/-- Draw the next value from the stream. -/
def RNG.next (r : RNG) : Nat × RNG := (r.seq r.pos, ⟨r.seq, r.pos + 1⟩)

/-- `random.choice(seq)`: raises `IndexError` on an empty sequence,
otherwise returns the element selected by the next draw. -/
def randomChoice {α : Type} (l : List α) (r : RNG) : Except String (α × RNG) :=
  match l with
  | [] => .error "Cannot choose from an empty sequence"
  | x :: xs =>
    let (n, r1) := r.next
    .ok ((x :: xs).get ⟨n % (xs.length + 1), Nat.mod_lt n (Nat.succ_pos xs.length)⟩, r1)

/-- `random.choices(population, k=k)`: `k` draws with replacement; CPython
indexes `population[floor(random() * 0)]` on an empty population, raising
`IndexError: list index out of range`. -/
def randomChoices {α : Type} (l : List α) : Nat → RNG → Except String (List α × RNG)
  | 0, r => .ok ([], r)
  | k + 1, r =>
    match l with
    | [] => .error "IndexError: list index out of range"
    | x :: xs =>
      let (n, r1) := r.next
      match randomChoices (x :: xs) k r1 with
      | .error e => .error e
      | .ok (rest, r2) =>
        .ok ((x :: xs).get ⟨n % (xs.length + 1), Nat.mod_lt n (Nat.succ_pos xs.length)⟩ :: rest, r2)

/-- Fuel-bounded body of Python's `range`. -/
def pyRangeAux (stop step : Int) : Nat → Int → List Int
  | 0, _ => []
  | fuel + 1, cur => if cur < stop then cur :: pyRangeAux stop step fuel (cur + step) else []

/-- Python's `range(start, stop, step)` for a positive step (the only form the
source uses); `stop - start` iterations of fuel suffice since each element
advances the cursor by at least one. -/
def pyRange (start stop step : Int) : List Int :=
  if 0 < step then pyRangeAux stop step (stop - start).toNat start else []

/-- The `TileDropper` object's state (its constructor fields). -/
structure TileDropper where
  colsep : Int
  rowsep : Int
  tile_list : List Tile
  thecols : List Int
  therows : List Int
  curloc : Option (Int × Int)
  prev_tiles : List Tile
  brightness : List Rat
  deriving DecidableEq

/-- `TileDropper.update_location`: clear the trailing history
(`deque.clear`), then pick a fresh `(column, row)` anchor pair. -/
def TileDropper.update_location (d : TileDropper) (r : RNG) :
    Except String (TileDropper × RNG) :=
  let d1 := { d with prev_tiles := [] }
  match randomChoice d1.thecols r with
  | .error e => .error e
  | .ok (cx, r1) =>
    match randomChoice d1.therows r1 with
    | .error e => .error e
    | .ok (ry, r2) => .ok ({ d1 with curloc := some (cx, ry) }, r2)

/-- The `for entry in self._prev_tiles` loop of `drop_tile`: paste each
history entry at its decayed brightness, `counter` rows above the drop
point; `self._brightness[counter]` raises `IndexError` past the end of
the brightness table. -/
def pasteTrail (cx cy rowsep : Int) :
    List Tile → Nat → List Rat → Canvas → Except String Canvas
  | [], _, _, img => .ok img
  | entry :: rest, counter, bright, img =>
    match bright.get? counter with
    | none => .error "IndexError: list index out of range"
    | some b =>
      let ypos := cy - (counter : Int) * ((entry.height : Int) + rowsep)
      pasteTrail cx cy rowsep rest (counter + 1) bright
        (img.paste (enhance b entry) cx ypos)

/-- `TileDropper.drop_tile`: relocate when the location is unset, draw a
tile, push it on the bounded history (`deque(maxlen=5)` evicts the oldest
entry), composite the whole trail, advance the vertical coordinate and
reset the location once it falls far enough below the canvas. -/
def TileDropper.drop_tile (d : TileDropper) (img : Canvas) (r : RNG) :
    Except String (TileDropper × Canvas × RNG) :=
  match (match d.curloc with
         | none => d.update_location r
         | some _ => .ok (d, r)) with
  | .error e => .error e
  | .ok (d1, r1) =>
    match d1.curloc with
    | none => .error "TypeError: NoneType object is not subscriptable"
    | some (cx, cy) =>
      match randomChoice d1.tile_list r1 with
      | .error e => .error e
      | .ok (a_tile, r2) =>
        let d2 := { d1 with prev_tiles := (a_tile :: d1.prev_tiles).take 5 }
        match pasteTrail cx cy d2.rowsep d2.prev_tiles 0 d2.brightness img with
        | .error e => .error e
        | .ok img1 =>
          let ny := cy + (a_tile.height : Int) + d2.rowsep
          let d3 :=
            if ny > (img1.height : Int) + ((a_tile.height : Int) + d2.rowsep) * (d2.brightness.length : Int) then
              { d2 with curloc := none }
            else
              { d2 with curloc := some (cx, ny) }
          .ok (d3, img1, r2)

/-- The parsed command-line configuration (`_parse_arguments`), with the
source's defaults; the tile directory, output directory and logging options
are file-system concerns outside the embedding. -/
structure Config where
  duration : Int := 400
  numupdators : Nat := 30
  prefill : Bool := false
  numframes : Nat := 500
  colsep : Int := 4
  rowsep : Int := 2
  width : Nat := 800
  height : Nat := 600
  deriving DecidableEq

/-- The cell list the pre-fill pass iterates over (`all_tiles` in
`randomly_fill_image`): `x` in `range(0, width, colsep+16)` outer, `y` in
`range(0, height, rowsep+16)` inner — a grid with a hardcoded 16-pixel
tile-size assumption that covers the full canvas height. -/
def prefillCells (theargs : Config) : List (Int × Int) :=
  (pyRange 0 (theargs.width : Int) (theargs.colsep + 16)).flatMap (fun x =>
    (pyRange 0 (theargs.height : Int) (theargs.rowsep + 16)).map (fun y => (x, y)))

/-- The second nested loop of `randomly_fill_image`: paste one random tile
per cell, bright (`1.0`) for cells among the glowing draws, dim (`0.2`)
otherwise. -/
def fillCells (tile_list : List Tile) (glowing_tiles : List (Int × Int)) :
    List (Int × Int) → Canvas → RNG → Except String (Canvas × RNG)
  | [], img, r => .ok (img, r)
  | (x, y) :: rest, img, r =>
    match randomChoice tile_list r with
    | .error e => .error e
    | .ok (a_tile, r1) =>
      let brightness_value : Rat := if (x, y) ∈ glowing_tiles then 1 else ratPointTwo
      fillCells tile_list glowing_tiles rest
        (img.paste (enhance brightness_value a_tile) x y) r1

/-- `randomly_fill_image`: draw 24 glowing cells with replacement, then fill
every cell of the hardcoded 16-pixel grid. -/
def randomly_fill_image (theargs : Config) (img : Canvas) (tile_list : List Tile)
    (r : RNG) : Except String (Canvas × RNG) :=
  match randomChoices (prefillCells theargs) 24 r with
  | .error e => .error e
  | .ok (glowing_tiles, r1) => fillCells tile_list glowing_tiles (prefillCells theargs) img r1

/-- The column anchors computed in `run`:
`range(0, img.size[0], tile_list[0].size[0] + colsep)`. -/
def anchorCols (t0 : Tile) (theargs : Config) : List Int :=
  pyRange 0 (theargs.width : Int) ((t0.width : Int) + theargs.colsep)

/-- The row anchors computed in `run`:
`range(0, img.size[1] - 5*rowwidth, rowwidth)` with
`rowwidth = tile_list[0].size[1] + rowsep`. -/
def anchorRows (t0 : Tile) (theargs : Config) : List Int :=
  pyRange 0 ((theargs.height : Int) - 5 * ((t0.height : Int) + theargs.rowsep))
    ((t0.height : Int) + theargs.rowsep)

/-- The cells of the Drop Anchor Grid as the spec describes them (column
anchors crossed with row anchors); used to compare the pre-fill pass against
the spec's description of it in claim C5. -/
def anchorCells (t0 : Tile) (theargs : Config) : List (Int × Int) :=
  (anchorCols t0 theargs).flatMap (fun x => (anchorRows t0 theargs).map (fun y => (x, y)))

/-- The setup part of `run`: fresh canvas, optional pre-fill, anchor grid
(`tile_list[0]` raises `IndexError` on an empty tile list), and the pool of
droppers sharing the canvas and tile list. -/
def setupSim (tile_list : List Tile) (theargs : Config) (r : RNG) :
    Except String (List TileDropper × Canvas × RNG) :=
  let img := Canvas.new theargs.width theargs.height
  match (if theargs.prefill then randomly_fill_image theargs img tile_list r
         else .ok (img, r)) with
  | .error e => .error e
  | .ok (img1, r1) =>
    match tile_list with
    | [] => .error "IndexError: list index out of range"
    | t0 :: _ =>
      let dropper : TileDropper :=
        { colsep := theargs.colsep, rowsep := theargs.rowsep,
          tile_list := tile_list, thecols := anchorCols t0 theargs,
          therows := anchorRows t0 theargs, curloc := none, prev_tiles := [],
          brightness := [1, ratPointEight, ratPointSix, ratPointFour, ratPointTwo] }
      .ok (List.replicate theargs.numupdators dropper, img1, r1)

/-- The inner `for dropper in d_list` loop of a frame: advance every dropper
once, in list order, against the shared canvas. -/
def stepDroppers : List TileDropper → Canvas → RNG →
    Except String (List TileDropper × Canvas × RNG)
  | [], img, r => .ok ([], img, r)
  | d :: ds, img, r =>
    match d.drop_tile img r with
    | .error e => .error e
    | .ok (d1, img1, r1) =>
      match stepDroppers ds img1 r1 with
      | .error e => .error e
      | .ok (ds1, img2, r2) => .ok (d1 :: ds1, img2, r2)

/-- The `for x in range(0, numframes)` loop of `run`: one `stepDroppers`
pass per frame, then `img_list.append(img.copy())` — the appended value is
an independent snapshot of the canvas at that instant. -/
def simLoop : Nat → List TileDropper → Canvas → RNG → List Canvas →
    Except String (List Canvas × List TileDropper × Canvas × RNG)
  | 0, ds, img, r, acc => .ok (acc, ds, img, r)
  | n + 1, ds, img, r, acc =>
    match stepDroppers ds img r with
    | .error e => .error e
    | .ok (ds1, img1, r1) => simLoop n ds1 img1 r1 (acc ++ [img1])

/-- `run` (minus file I/O): setup, the frame loop, then the GIF save, whose
first action is indexing `img_list[0]` — on an empty frame list that raises
`IndexError`. On success the artifact is the full ordered frame sequence. -/
def run (tile_list : List Tile) (theargs : Config) (r : RNG) :
    Except String (List Canvas) :=
  match setupSim tile_list theargs r with
  | .error e => .error e
  | .ok (d_list, img, r1) =>
    match simLoop theargs.numframes d_list img r1 [] with
    | .error e => .error e
    | .ok (img_list, _, _, _) =>
      match img_list with
      | [] => .error "IndexError: list index out of range"
      | f :: fs => .ok (f :: fs)

/-- `main`: run, catching any exception, logging it (`logger.exception`)
and returning exit status 2; success returns `run`'s 0. The second
component is the log produced by the exception handler. -/
def main (tile_list : List Tile) (theargs : Config) (r : RNG) : Nat × List String :=
  match run tile_list theargs r with
  | .ok _ => (0, [])
  | .error e => (2, ["Caught exception", e])

/-- The canvas contents at the end of simulation step `k` (the state the
`k`-th appended snapshot is taken from); independent of `numframes` by
construction. -/
def canvasAfterStep (tile_list : List Tile) (theargs : Config) (r : RNG)
    (k : Nat) : Option Canvas :=
  match setupSim tile_list theargs r with
  | .error _ => none
  | .ok (d_list, img, r1) =>
    match simLoop k d_list img r1 [] with
    | .error _ => none
    | .ok (_, _, img2, _) => some img2

/-- Spec-side description of `drop()` on an ACTIVE dropper at `(cx, cy)`
with uniform tile height `th` (claim C4): push the drawn tile to the front
of the length-5 history (evicting the oldest when full), composite history
entry `i` at `(cx, cy - i*(th+rowsep))` with brightness
`[1.0, 0.8, 0.6, 0.4, 0.2][i]`, advance the vertical coordinate by
`th + rowsep`, and reset to UNSET exactly when the new vertical coordinate
exceeds `canvasHeight + (th+rowsep)*5`. -/
def dropActiveSpec (d : TileDropper) (img : Canvas) (r : RNG) (cx cy th : Int) :
    TileDropper × Canvas × RNG :=
  let n := r.seq r.pos
  let t := d.tile_list.getD (n % d.tile_list.length) ⟨0, 0, []⟩
  let hist := (t :: d.prev_tiles).take 5
  let img1 := hist.enum.foldl
    (fun c p => c.paste (enhance ([1, ratPointEight, ratPointSix, ratPointFour, ratPointTwo].getD p.1 0) p.2)
      cx (cy - (p.1 : Int) * (th + d.rowsep))) img
  let ny := cy + th + d.rowsep
  ({ d with
      prev_tiles := hist
      curloc := if ny > (img.height : Int) + (th + d.rowsep) * 5 then none
                else some (cx, ny) },
   img1, ⟨r.seq, r.pos + 1⟩)

/-- Spec-side description of the amended pre-fill pass (claim C5): one paste
per cell of the hardcoded 16-pixel grid, each with a freshly drawn tile,
bright for glowing cells and dim otherwise. -/
def prefillSpecFold (tile_list : List Tile) (glowing : List (Int × Int))
    (cells : List (Int × Int)) (img : Canvas) (r : RNG) : Canvas × RNG :=
  cells.foldl (fun p cell =>
    let n := p.2.seq p.2.pos
    let t := tile_list.getD (n % tile_list.length) ⟨0, 0, []⟩
    let b : Rat := if cell ∈ glowing then 1 else ratPointTwo
    (p.1.paste (enhance b t) cell.1 cell.2, ⟨p.2.seq, p.2.pos + 1⟩)) (img, r)

/-! Concrete inputs used by the scenario claims and the witnesses. -/

/-- An all-white square tile of side `n`. -/
def whiteTile (n : Nat) : Tile :=
  ⟨n, n, List.replicate n (List.replicate n (255, 255, 255))⟩

/-- A concrete randomness stream (every draw is 0). -/
def zeroRng : RNG := ⟨fun _ => 0, 0⟩

/-- Claim C2's configuration: canvas 64×64, colsep 0, rowsep 0, 1 dropper,
10 frames. -/
def cfgEmptyRows : Config :=
  { numupdators := 1, numframes := 10, colsep := 0, rowsep := 0,
    width := 64, height := 64 }

/-- Claim C2's Tile Set: 4 tiles of 16×16 px. -/
def tilesFour16 : List Tile := List.replicate 4 (whiteTile 16)

/-- Claim C1's configuration: `numframes = 0`, otherwise valid. -/
def cfgZeroFrames : Config :=
  { numupdators := 1, numframes := 0, colsep := 0, rowsep := 0,
    width := 16, height := 16 }

/-- A valid single-tile Tile Set for the `numframes = 0` scenario. -/
def tilesZeroFrames : List Tile := [whiteTile 2]

/-- The dropper pool, canvas and generator state after setup in the
`numframes = 0` scenario. -/
def setupZeroFrames : List TileDropper × Canvas × RNG :=
  match setupSim tilesZeroFrames cfgZeroFrames zeroRng with
  | .ok x => x
  | .error _ => ([], Canvas.new 0 0, zeroRng)

/-- A small configuration on which `run` succeeds: 1×1 tile, canvas 2×8,
1 dropper, 2 frames. -/
def cfgSmallRun : Config :=
  { numupdators := 1, numframes := 2, colsep := 0, rowsep := 0,
    width := 2, height := 8 }

/-- The Tile Set of the small successful run. -/
def tilesSmallRun : List Tile := [whiteTile 1]

/-- The frame sequence the small run produces. -/
def framesSmallRun : List Canvas :=
  match run tilesSmallRun cfgSmallRun zeroRng with
  | .ok f => f
  | .error _ => []

/-- Claim C5's counterexample configuration: 8×8 tile, canvas 24×48,
colsep 0, rowsep 0, pre-fill enabled. -/
def cfgPrefill : Config :=
  { numupdators := 1, numframes := 1, prefill := true, colsep := 0,
    rowsep := 0, width := 24, height := 48 }

/-- The canvas the pre-fill pass produces in claim C5's counterexample
configuration. -/
def prefillResult : Canvas :=
  match randomly_fill_image cfgPrefill (Canvas.new 24 48) [whiteTile 8] zeroRng with
  | .ok (img, _) => img
  | .error _ => Canvas.new 0 0

/-- A concrete dropper in the UNSET state over a 2×8 canvas. -/
def unsetDropper : TileDropper :=
  { colsep := 0, rowsep := 0, tile_list := [whiteTile 1], thecols := [0],
    therows := [0, 1, 2], curloc := none, prev_tiles := [],
    brightness := [1, ratPointEight, ratPointSix, ratPointFour, ratPointTwo] }

/-- The canvas the concrete droppers act on. -/
def smallCanvas : Canvas := Canvas.new 2 8

/-- A concrete dropper in the ACTIVE state at `(0, 2)` with a one-entry
history. -/
def activeDropper : TileDropper :=
  { unsetDropper with curloc := some (0, 2), prev_tiles := [whiteTile 1] }

/-- The state `drop()` produces from `activeDropper` on `smallCanvas`. -/
def dropResult : TileDropper × Canvas × RNG :=
  match activeDropper.drop_tile smallCanvas zeroRng with
  | .ok x => x
  | .error _ => (activeDropper, smallCanvas, zeroRng)

/-- The state `drop()` produces from `unsetDropper` on `smallCanvas`. -/
def dropResultUnset : TileDropper × Canvas × RNG :=
  match unsetDropper.drop_tile smallCanvas zeroRng with
  | .ok x => x
  | .error _ => (unsetDropper, smallCanvas, zeroRng)

/-- The dropper pool, canvas and generator state after setup in claim C2's
configuration. -/
def setupEmptyRows : List TileDropper × Canvas × RNG :=
  match setupSim tilesFour16 cfgEmptyRows zeroRng with
  | .ok x => x
  | .error _ => ([], Canvas.new 0 0, zeroRng)

/-- The single dropper that setup builds in claim C2's configuration. -/
def dropperEmptyRows : TileDropper :=
  { colsep := cfgEmptyRows.colsep, rowsep := cfgEmptyRows.rowsep,
    tile_list := tilesFour16, thecols := anchorCols (whiteTile 16) cfgEmptyRows,
    therows := anchorRows (whiteTile 16) cfgEmptyRows, curloc := none,
    prev_tiles := [], brightness := [1, ratPointEight, ratPointSix, ratPointFour, ratPointTwo] }

/-! Helper lemmas. -/

theorem ratPointTwo_eq : ratPointTwo = 0.2 := by
  rw [show (0.2 : Rat) = Rat.ofScientific 2 true 1 from rfl, Rat.ofScientific_true_def]
  rfl

theorem ratPointFour_eq : ratPointFour = 0.4 := by
  rw [show (0.4 : Rat) = Rat.ofScientific 4 true 1 from rfl, Rat.ofScientific_true_def]
  rfl

theorem ratPointSix_eq : ratPointSix = 0.6 := by
  rw [show (0.6 : Rat) = Rat.ofScientific 6 true 1 from rfl, Rat.ofScientific_true_def]
  rfl

theorem ratPointEight_eq : ratPointEight = 0.8 := by
  rw [show (0.8 : Rat) = Rat.ofScientific 8 true 1 from rfl, Rat.ofScientific_true_def]
  rfl


theorem Canvas.paste_height (c : Canvas) (t : Tile) (x y : Int) :
    (c.paste t x y).height = c.height := rfl

theorem Canvas.paste_width (c : Canvas) (t : Tile) (x y : Int) :
    (c.paste t x y).width = c.width := rfl

theorem foldl_paste_height {β : Type} (g : Canvas → β → Canvas)
    (hg : ∀ c b, (g c b).height = c.height) :
    ∀ (l : List β) (img : Canvas), (l.foldl g img).height = img.height
  | [], _ => rfl
  | b :: l, img => by
      rw [List.foldl_cons, foldl_paste_height g hg l, hg]

theorem randomChoice_cons {α : Type} (x : α) (xs : List α) (r : RNG) :
    randomChoice (x :: xs) r =
      .ok ((x :: xs).get ⟨r.seq r.pos % (xs.length + 1),
             Nat.mod_lt _ (Nat.succ_pos _)⟩, ⟨r.seq, r.pos + 1⟩) := rfl

theorem randomChoice_mem {α : Type} {l : List α} {r : RNG} {a : α} {r' : RNG}
    (h : randomChoice l r = .ok (a, r')) : a ∈ l := by
  cases l with
  | nil => exact absurd h (by simp [randomChoice])
  | cons x xs =>
      rw [randomChoice_cons] at h
      obtain ⟨h1, -⟩ := Prod.mk.injEq .. ▸ Except.ok.inj h
      exact h1 ▸ List.get_mem _ _ _

theorem mem_pyRangeAux {stop step : Int} (hstep : 0 < step) :
    ∀ (fuel : Nat) (cur : Int) (y : Int), (stop - cur).toNat ≤ fuel →
      (y ∈ pyRangeAux stop step fuel cur ↔ ∃ k : Nat, y = cur + k * step ∧ y < stop)
  | 0, cur, y, hfuel => by
      have hsc : stop ≤ cur := by omega
      simp only [pyRangeAux, List.not_mem_nil, false_iff]
      rintro ⟨k, rfl, hlt⟩
      have : (0 : Int) ≤ (k : Int) * step :=
        mul_nonneg (Int.natCast_nonneg k) hstep.le
      omega
  | fuel + 1, cur, y, hfuel => by
      by_cases h : cur < stop
      · have ih : y ∈ pyRangeAux stop step fuel (cur + step) ↔
            ∃ k : Nat, y = (cur + step) + k * step ∧ y < stop :=
          mem_pyRangeAux hstep fuel (cur + step) y (by omega)
        simp only [pyRangeAux, if_pos h, List.mem_cons, ih]
        constructor
        · rintro (rfl | ⟨k, rfl, hlt⟩)
          · exact ⟨0, by simp, h⟩
          · exact ⟨k + 1, by push_cast; ring, hlt⟩
        · rintro ⟨k, rfl, hlt⟩
          cases k with
          | zero => left; simp
          | succ k => right; exact ⟨k, by push_cast; ring, hlt⟩
      · simp only [pyRangeAux, if_neg h, List.not_mem_nil, false_iff]
        rintro ⟨k, rfl, hlt⟩
        have : (0 : Int) ≤ (k : Int) * step :=
          mul_nonneg (Int.natCast_nonneg k) hstep.le
        omega

theorem mem_pyRange {start stop step : Int} (hstep : 0 < step) (y : Int) :
    y ∈ pyRange start stop step ↔ ∃ k : Nat, y = start + k * step ∧ y < stop := by
  rw [pyRange, if_pos hstep]
  exact mem_pyRangeAux hstep _ _ _ (le_refl _)

theorem multiples_iff {step y : Int} (hstep : 0 < step) :
    (∃ k : Nat, y = k * step) ↔ step ∣ y ∧ 0 ≤ y := by
  constructor
  · rintro ⟨k, rfl⟩
    exact ⟨Dvd.intro_left k rfl, mul_nonneg (Int.natCast_nonneg k) hstep.le⟩
  · rintro ⟨⟨c, rfl⟩, hy0⟩
    have hc : 0 ≤ c := by
      by_contra hneg
      push_neg at hneg
      have hlt := mul_neg_of_pos_of_neg hstep hneg
      linarith
    exact ⟨c.toNat, by rw [Int.toNat_of_nonneg hc]; ring⟩

theorem pasteTrail_eq_foldl (cx cy rowsep th : Int) :
    ∀ (ts : List Tile) (c : Nat) (bright : List Rat) (img : Canvas),
      (∀ t ∈ ts, (t.height : Int) = th) → c + ts.length ≤ bright.length →
      pasteTrail cx cy rowsep ts c bright img =
        .ok ((ts.enumFrom c).foldl
          (fun acc p => acc.paste (enhance (bright.getD p.1 0) p.2) cx
            (cy - (p.1 : Int) * (th + rowsep))) img)
  | [], c, bright, img, _, _ => by simp [pasteTrail, List.enumFrom]
  | t :: ts, c, bright, img, hth, hlen => by
      have hc : c < bright.length := by
        simp only [List.length_cons] at hlen; omega
      have hth' : (t.height : Int) = th := hth t (List.mem_cons_self t ts)
      have ih := pasteTrail_eq_foldl cx cy rowsep th ts (c + 1) bright
        (img.paste (enhance (bright.get ⟨c, hc⟩) t) cx
          (cy - (c : Int) * (th + rowsep)))
        (fun t' ht' => hth t' (List.mem_cons_of_mem t ht'))
        (by simp only [List.length_cons] at hlen; omega)
      simp only [pasteTrail, List.get?_eq_get hc, hth']
      rw [ih, List.enumFrom_cons, List.foldl_cons, List.getD_eq_get _ _ hc]

theorem fillCells_eq_spec (tile_list : List Tile) (t0 : Tile) (ts : List Tile)
    (htl : tile_list = t0 :: ts) (glowing : List (Int × Int)) :
    ∀ (cells : List (Int × Int)) (img : Canvas) (r : RNG),
      fillCells tile_list glowing cells img r =
        .ok (prefillSpecFold tile_list glowing cells img r)
  | [], img, r => by simp [fillCells, prefillSpecFold]
  | (x, y) :: cells, img, r => by
      have ih := fillCells_eq_spec tile_list t0 ts htl glowing cells
      subst htl
      simp only [fillCells, randomChoice_cons, prefillSpecFold, List.foldl_cons]
      rw [ih]
      simp only [prefillSpecFold]
      have hidx2 : r.seq r.pos % (t0 :: ts).length < (t0 :: ts).length :=
        Nat.mod_lt _ (Nat.succ_pos _)
      rw [List.getD_eq_get _ _ hidx2]
      rfl

theorem randomChoices_length {α : Type} (x : α) (xs : List α) :
    ∀ (k : Nat) (r : RNG), ∃ res r',
      randomChoices (x :: xs) k r = .ok (res, r') ∧ res.length = k
  | 0, r => ⟨[], r, rfl, rfl⟩
  | k + 1, r => by
      obtain ⟨res, r', hok, hlen⟩ :=
        randomChoices_length x xs k ⟨r.seq, r.pos + 1⟩
      refine ⟨(x :: xs).get ⟨r.seq r.pos % (xs.length + 1),
        Nat.mod_lt _ (Nat.succ_pos _)⟩ :: res, r', ?_, by simp [hlen]⟩
      simp only [randomChoices, RNG.next, hok]

theorem simLoop_add :
    ∀ (a b : Nat) (ds : List TileDropper) (img : Canvas) (r : RNG)
      (acc : List Canvas),
      simLoop (a + b) ds img r acc =
        match simLoop a ds img r acc with
        | .error e => .error e
        | .ok (acc', ds', img', r') => simLoop b ds' img' r' acc'
  | 0, b, ds, img, r, acc => by
      rw [Nat.zero_add]
      rfl
  | a + 1, b, ds, img, r, acc => by
      rw [show a + 1 + b = (a + b) + 1 from by omega]
      simp only [simLoop]
      cases hstep : stepDroppers ds img r with
      | error e => rfl
      | ok x =>
          obtain ⟨ds1, img1, r1⟩ := x
          exact simLoop_add a b ds1 img1 r1 (acc ++ [img1])

theorem simLoop_ok_struct :
    ∀ (n : Nat) (ds : List TileDropper) (img : Canvas) (r : RNG)
      (acc fr : List Canvas) (ds' : List TileDropper) (img' : Canvas) (r' : RNG),
      simLoop n ds img r acc = .ok (fr, ds', img', r') →
      ∃ ext, fr = acc ++ ext ∧ ext.length = n ∧
        (n = 0 → img' = img) ∧ (0 < n → fr.getLast? = some img')
  | 0, ds, img, r, acc, fr, ds', img', r', h => by
      obtain ⟨h1, h2, h3, -⟩ :=
        Prod.mk.injEq .. ▸ Prod.mk.injEq .. ▸ Prod.mk.injEq .. ▸ Except.ok.inj h
      exact ⟨[], by simp [← h1], rfl, fun _ => h3.symm, fun hc => absurd hc (by omega)⟩
  | n + 1, ds, img, r, acc, fr, ds', img', r', h => by
      simp only [simLoop] at h
      split at h
      · exact absurd h (by simp)
      · rename_i ds1 img1 r1 heq
        obtain ⟨ext1, hfr, hlen, h0, hpos⟩ :=
          simLoop_ok_struct n ds1 img1 r1 (acc ++ [img1]) fr ds' img' r' h
        refine ⟨img1 :: ext1, by simp [hfr], by simp [hlen], fun hc => absurd hc (by omega), fun _ => ?_⟩
        cases n with
        | zero =>
            have hext : ext1 = [] := List.length_eq_zero.mp hlen
            rw [hfr, hext, List.append_nil, h0 rfl]
            exact List.getLast?_concat _
        | succ m => exact hpos (Nat.succ_pos m)


set_option maxHeartbeats 2000000

/-! Claim theorems. -/

/-- Claim C1 (code bug): with `numframes = 0` the simulation produces an
empty Frame Sequence, and the save step then evaluates `img_list[0]` on
that empty list, raising `IndexError` — the run fails by indexing element 0
of the empty frame list instead of rejecting or no-oping. -/
theorem numframes_zero_indexes_empty_frames :
    (setupSim tilesZeroFrames cfgZeroFrames zeroRng).isOk = true ∧
    simLoop cfgZeroFrames.numframes setupZeroFrames.1 setupZeroFrames.2.1
      setupZeroFrames.2.2 [] =
      .ok ([], setupZeroFrames.1, setupZeroFrames.2.1, setupZeroFrames.2.2) ∧
    run tilesZeroFrames cfgZeroFrames zeroRng =
      .error "IndexError: list index out of range" :=
  ⟨rfl, rfl, rfl⟩

/-- Claim C2: with 4 tiles of 16×16 px, canvas 64×64, colsep 0, rowsep 0,
the Drop Anchor Grid has the 4 column anchors `[0, 16, 32, 48]` and no row
anchors (`64 - 5*16 < 0`); the first drop then raises on the empty row
sequence, the failure propagates to the top level, and `main` logs it and
returns the non-zero exit status 2. -/
theorem empty_row_anchor_reported :
    anchorCols (whiteTile 16) cfgEmptyRows = [0, 16, 32, 48] ∧
    anchorRows (whiteTile 16) cfgEmptyRows = [] ∧
    run tilesFour16 cfgEmptyRows zeroRng =
      .error "Cannot choose from an empty sequence" ∧
    main tilesFour16 cfgEmptyRows zeroRng =
      (2, ["Caught exception", "Cannot choose from an empty sequence"]) :=
  ⟨rfl, rfl, rfl, rfl⟩

/-- Claim C8: the simulation is a deterministic function of the seeded
randomness source and the configuration — all variation (tile choice,
anchor choice, glowing-cell choice) is drawn from the single `RNG` threaded
through `run`, so equal generator states and equal configurations give
identical frame sequences. -/
theorem run_deterministic (tile_list : List Tile) (theargs₁ theargs₂ : Config)
    (r₁ r₂ : RNG) (hr : r₁ = r₂) (hc : theargs₁ = theargs₂) :
    run tile_list theargs₁ r₁ = run tile_list theargs₂ r₂ := by
  rw [hr, hc]

/-- Witness for `run_deterministic` at a concrete seed and configuration. -/
theorem run_deterministic_witness :
    run tilesSmallRun cfgSmallRun zeroRng = run tilesSmallRun cfgSmallRun zeroRng :=
  run_deterministic tilesSmallRun cfgSmallRun cfgSmallRun zeroRng zeroRng rfl rfl


/-- Claim C3: immediately after `update_location` (forced or triggered by
vertical overflow) the trailing history is empty, and a `drop()` on a
dropper in the UNSET state relocates it (UNSET to ACTIVE), composites a
trail of length at most 1 (exactly the new tile at full brightness), and
leaves it ACTIVE one row below the fresh anchor. -/
theorem update_location_resets (d : TileDropper) (img : Canvas) (r : RNG) (th : Int)
    (hbr : d.brightness = [1, ratPointEight, ratPointSix, ratPointFour, ratPointTwo])
    (hth : ∀ t ∈ d.tile_list, (t.height : Int) = th)
    (hun : d.curloc = none)
    (hcols : d.thecols ≠ []) (hrows : d.therows ≠ []) (htl : d.tile_list ≠ [])
    (hbound : ∀ y ∈ d.therows,
      y + (th + d.rowsep) ≤ (img.height : Int) + (th + d.rowsep) * 5) :
    (∃ cx0 cy0 r0, d.update_location r =
        .ok ({ d with prev_tiles := [], curloc := some (cx0, cy0) }, r0)) ∧
    (∃ t cx cy d' img' r', t ∈ d.tile_list ∧ cx ∈ d.thecols ∧ cy ∈ d.therows ∧
      d.drop_tile img r = .ok (d', img', r') ∧
      d'.prev_tiles = [t] ∧
      img' = img.paste (enhance 1 t) cx cy ∧
      d'.curloc = some (cx, cy + th + d.rowsep)) := by
  obtain ⟨c0, cs, hc⟩ : ∃ c0 cs, d.thecols = c0 :: cs := by
    cases hl : d.thecols with
    | nil => exact absurd hl hcols
    | cons a l => exact ⟨a, l, rfl⟩
  obtain ⟨y0, ys, hy⟩ : ∃ y0 ys, d.therows = y0 :: ys := by
    cases hl : d.therows with
    | nil => exact absurd hl hrows
    | cons a l => exact ⟨a, l, rfl⟩
  obtain ⟨t0, ts, htl0⟩ : ∃ t0 ts, d.tile_list = t0 :: ts := by
    cases hl : d.tile_list with
    | nil => exact absurd hl htl
    | cons a l => exact ⟨a, l, rfl⟩
  set cx := (c0 :: cs).get ⟨r.seq r.pos % (cs.length + 1),
    Nat.mod_lt _ (Nat.succ_pos _)⟩ with hcx
  set cy := (y0 :: ys).get ⟨r.seq (r.pos + 1) % (ys.length + 1),
    Nat.mod_lt _ (Nat.succ_pos _)⟩ with hcy
  set t := (t0 :: ts).get ⟨r.seq (r.pos + 1 + 1) % (ts.length + 1),
    Nat.mod_lt _ (Nat.succ_pos _)⟩ with ht
  have hcxm : cx ∈ d.thecols := by rw [hc]; exact List.get_mem _ _ _
  have hcym : cy ∈ d.therows := by rw [hy]; exact List.get_mem _ _ _
  have htm : t ∈ d.tile_list := by rw [htl0]; exact List.get_mem _ _ _
  have hthm : (t.height : Int) = th := hth _ htm
  constructor
  · refine ⟨cx, cy, ⟨r.seq, r.pos + 1 + 1⟩, ?_⟩
    simp only [TileDropper.update_location, hc, hy, randomChoice_cons]
  · refine ⟨t, cx, cy,
      { d with prev_tiles := [t], curloc := some (cx, cy + th + d.rowsep) },
      img.paste (enhance 1 t) cx cy, ⟨r.seq, r.pos + 3⟩,
      htm, hcxm, hcym, ?_, rfl, rfl, rfl⟩
    simp only [TileDropper.drop_tile, hun, TileDropper.update_location,
      hc, hy, htl0, randomChoice_cons, hbr, pasteTrail, hthm]
    simp only [List.get?_cons_zero, Nat.cast_zero, zero_mul, sub_zero]
    simp only [← hcx, ← hcy, ← ht, Canvas.paste_height, List.length_cons,
      List.length_nil]
    have hc2 : ¬ (cy + th + d.rowsep >
        (img.height : Int) + (th + d.rowsep) * ((0 + 1 + 1 + 1 + 1 + 1 : Nat) : Int)) := by
      have hb := hbound cy hcym
      have h5 : ((0 + 1 + 1 + 1 + 1 + 1 : Nat) : Int) = 5 := by norm_num
      rw [h5]
      linarith
    rw [if_neg hc2]
    rfl

/-- Witness for `update_location_resets` on a concrete UNSET dropper. -/
theorem update_location_resets_witness :
    (∃ cx0 cy0 r0, unsetDropper.update_location zeroRng =
        .ok ({ unsetDropper with prev_tiles := [], curloc := some (cx0, cy0) }, r0)) ∧
    (∃ t cx cy d' img' r', t ∈ unsetDropper.tile_list ∧ cx ∈ unsetDropper.thecols ∧
      cy ∈ unsetDropper.therows ∧
      unsetDropper.drop_tile smallCanvas zeroRng = .ok (d', img', r') ∧
      d'.prev_tiles = [t] ∧
      img' = smallCanvas.paste (enhance 1 t) cx cy ∧
      d'.curloc = some (cx, cy + 1 + unsetDropper.rowsep)) :=
  update_location_resets unsetDropper smallCanvas zeroRng 1 rfl (by decide) rfl
    (by decide) (by decide) (by decide) (by decide)

/-- Claim C4: a `drop()` on an ACTIVE dropper at `(cx, cy)` behaves exactly
as described: the drawn tile is pushed to the front of the length-5 history
(evicting the oldest when full), history entry `i` is composited at
`(cx, cy - i*(tileHeight+rowsep))` with brightness
`[1.0, 0.8, 0.6, 0.4, 0.2][i]`, the vertical coordinate advances by
`tileHeight+rowsep`, and the dropper resets to UNSET exactly when the new
vertical coordinate exceeds `canvasHeight + (tileHeight+rowsep)*5`. -/
theorem drop_tile_active_eq_spec (d : TileDropper) (img : Canvas) (r : RNG)
    (cx cy th : Int)
    (hloc : d.curloc = some (cx, cy))
    (hne : d.tile_list ≠ [])
    (hth : ∀ t ∈ d.tile_list, (t.height : Int) = th)
    (hprev : ∀ t ∈ d.prev_tiles, (t.height : Int) = th)
    (hbr : d.brightness = [1, ratPointEight, ratPointSix, ratPointFour, ratPointTwo]) :
    d.drop_tile img r = .ok (dropActiveSpec d img r cx cy th) := by
  obtain ⟨t0, ts, htl⟩ : ∃ t0 ts, d.tile_list = t0 :: ts := by
    cases hl : d.tile_list with
    | nil => exact absurd hl hne
    | cons a l => exact ⟨a, l, rfl⟩
  have hmem : (t0 :: ts).get ⟨r.seq r.pos % (ts.length + 1),
      Nat.mod_lt _ (Nat.succ_pos _)⟩ ∈ d.tile_list := by
    rw [htl]
    exact List.get_mem _ _ _
  set a_tile := (t0 :: ts).get ⟨r.seq r.pos % (ts.length + 1),
      Nat.mod_lt _ (Nat.succ_pos _)⟩ with ha
  have hhist : ∀ t ∈ (a_tile :: d.prev_tiles).take 5, (t.height : Int) = th := by
    intro t ht
    rcases List.mem_cons.mp (List.take_subset 5 _ ht) with rfl | hmem'
    · exact hth _ hmem
    · exact hprev _ hmem'
  have hlen : 0 + ((a_tile :: d.prev_tiles).take 5).length ≤ d.brightness.length := by
    rw [hbr]
    simp [List.length_take]
  have hpt := pasteTrail_eq_foldl cx cy d.rowsep th
    ((a_tile :: d.prev_tiles).take 5) 0 d.brightness img hhist hlen
  simp only [TileDropper.drop_tile, hloc, reduceCtorEq, if_false, htl,
    randomChoice_cons]
  rw [hpt]
  have hti : (a_tile.height : Int) = th := hth _ hmem
  have hlt : r.seq r.pos % (ts.length + 1) < (t0 :: ts).length :=
    Nat.mod_lt _ (Nat.succ_pos _)
  have hgd : (t0 :: ts).getD (r.seq r.pos % (ts.length + 1)) ⟨0, 0, []⟩ = a_tile := by
    rw [ha]
    exact List.getD_eq_get _ _ hlt
  simp only [dropActiveSpec, htl, hbr, hgd, ← ha, hti, List.length_cons, List.enum]
  have hih2 : (List.foldl
      (fun acc p => acc.paste (enhance (([1, ratPointEight, ratPointSix, ratPointFour, ratPointTwo] : List Rat).getD p.1 0) p.2) cx
        (cy - (p.1 : Int) * (th + d.rowsep))) img
      (List.enumFrom 0 (List.take 5 (a_tile :: d.prev_tiles)))).height = img.height :=
    foldl_paste_height
      (fun (acc : Canvas) (p : Nat × Tile) =>
        acc.paste (enhance (([1, ratPointEight, ratPointSix, ratPointFour, ratPointTwo] : List Rat).getD p.1 0) p.2) cx
          (cy - (p.1 : Int) * (th + d.rowsep)))
      (fun c b => rfl) _ _
  simp only [hih2, List.length_nil, List.length_cons, Nat.zero_add, Nat.cast_ofNat]
  have h5 : ((1 + 1 + 1 + 1 + 1 : Nat) : Int) = 5 := by norm_num
  rw [h5]
  by_cases hcond : cy + th + d.rowsep > (img.height : Int) + (th + d.rowsep) * 5
  · rw [if_pos hcond, if_pos hcond]
  · rw [if_neg hcond, if_neg hcond]

/-- Witness for `drop_tile_active_eq_spec` on a concrete ACTIVE dropper. -/
theorem drop_tile_active_eq_spec_witness :
    activeDropper.drop_tile smallCanvas zeroRng =
      .ok (dropActiveSpec activeDropper smallCanvas zeroRng 0 2 1) :=
  drop_tile_active_eq_spec activeDropper smallCanvas zeroRng 0 2 1 rfl (by decide)
    (by decide) (by decide) rfl

/-- Claim C5 counterexample: with an 8-by-8 tile on a 24-by-48 canvas and zero
separations, `(8, 0)` is a cell of the Drop Anchor Grid but not of the
hardcoded 16-pixel grid the pre-fill pass iterates over; after the pass the
pixel at that anchor cell still holds the black background, although any
paste of a white tile there (dim or bright) would have made it non-black —
so the pass does not paste a tile at every anchor cell. -/
theorem prefill_anchor_counterexample :
    ((8 : Int), (0 : Int)) ∈ anchorCells (whiteTile 8) cfgPrefill ∧
    ((8 : Int), (0 : Int)) ∉ prefillCells cfgPrefill ∧
    (randomly_fill_image cfgPrefill (Canvas.new 24 48) [whiteTile 8] zeroRng).isOk = true ∧
    prefillResult.getPix 8 0 = (0, 0, 0) ∧
    ((enhance 1 (whiteTile 8)).pix.getD 0 []).getD 0 (0, 0, 0) = (255, 255, 255) ∧
    ((enhance ratPointTwo (whiteTile 8)).pix.getD 0 []).getD 0 (0, 0, 0) = (51, 51, 51) :=
  ⟨by decide, by decide, by decide, by decide, by decide, by decide⟩

/-- Claim C5 (amended): when the pre-fill flag is set, the one-time pass
draws 24 glowing cells (a fixed count, with replacement) from the hardcoded
grid spaced `colsep+16` by `rowsep+16` over the full canvas, then pastes one
randomly chosen tile per cell of that grid, bright (1.0) on glowing cells
and dim (0.2) elsewhere. -/
theorem prefill_fills_grid16 (theargs : Config) (img : Canvas)
    (tile_list : List Tile) (t0 : Tile) (ts : List Tile) (r : RNG)
    (c0 : Int × Int) (cs : List (Int × Int))
    (htl : tile_list = t0 :: ts)
    (hcells : prefillCells theargs = c0 :: cs) :
    ∃ glowing r1,
      randomChoices (prefillCells theargs) 24 r = .ok (glowing, r1) ∧
      glowing.length = 24 ∧
      randomly_fill_image theargs img tile_list r =
        .ok (prefillSpecFold tile_list glowing (prefillCells theargs) img r1) := by
  obtain ⟨glowing, r1, hok, hlen⟩ := randomChoices_length c0 cs 24 r
  refine ⟨glowing, r1, by rw [hcells]; exact hok, hlen, ?_⟩
  rw [randomly_fill_image, hcells, hok]
  exact fillCells_eq_spec tile_list t0 ts htl glowing (c0 :: cs) img r1

/-- Witness for `prefill_fills_grid16` at the concrete pre-fill scenario. -/
theorem prefill_fills_grid16_witness :
    ∃ glowing r1,
      randomChoices (prefillCells cfgPrefill) 24 zeroRng = .ok (glowing, r1) ∧
      glowing.length = 24 ∧
      randomly_fill_image cfgPrefill (Canvas.new 24 48) [whiteTile 8] zeroRng =
        .ok (prefillSpecFold [whiteTile 8] glowing (prefillCells cfgPrefill)
          (Canvas.new 24 48) r1) :=
  prefill_fills_grid16 cfgPrefill (Canvas.new 24 48) [whiteTile 8] (whiteTile 8)
    [] zeroRng (0, 0) [(0, 16), (0, 32), (16, 0), (16, 16), (16, 32)] rfl (by decide)

/-- Claim C6: the trailing history never exceeds length 5 — setup creates
every dropper with an empty history, `update_location` clears it, and
`drop()` caps it at 5 (`deque(maxlen=5)`), so the bound is preserved by
every operation and holds after any number of `drop()` calls. -/
theorem history_bounded (d : TileDropper) (img : Canvas) (r : RNG) :
    (∀ d' r', d.update_location r = .ok (d', r') → d'.prev_tiles.length ≤ 5) ∧
    (∀ d' img' r', d.drop_tile img r = .ok (d', img', r') →
        d'.prev_tiles.length ≤ 5) ∧
    (∀ tl cfg r0 ds img0 r0', setupSim tl cfg r0 = .ok (ds, img0, r0') →
        ∀ d0 ∈ ds, d0.prev_tiles.length ≤ 5) := by
  refine ⟨?_, ?_, ?_⟩
  · intro d' r' h
    simp only [TileDropper.update_location] at h
    split at h
    · exact absurd h (by simp)
    · split at h
      · exact absurd h (by simp)
      · obtain ⟨h1, -⟩ := Prod.mk.injEq .. ▸ Except.ok.inj h
        simp [← h1]
  · intro d' img' r' h
    simp only [TileDropper.drop_tile] at h
    split at h
    · exact absurd h (by simp)
    · split at h
      · exact absurd h (by simp)
      · split at h
        · exact absurd h (by simp)
        · split at h
          · exact absurd h (by simp)
          · obtain ⟨h1, -⟩ := Prod.mk.injEq .. ▸ Except.ok.inj h
            split at h1 <;>
              simp [← h1, List.length_take]
  · intro tl cfg r0 ds img0 r0' h d0 hd0
    simp only [setupSim] at h
    split at h
    · exact absurd h (by simp)
    · split at h
      · exact absurd h (by simp)
      · obtain ⟨h1, -⟩ := Prod.mk.injEq .. ▸ Except.ok.inj h
        rw [← h1] at hd0
        rw [List.eq_of_mem_replicate hd0]
        simp

/-- Witness for `history_bounded` on a concrete `drop()` result. -/
theorem history_bounded_witness :
    dropResult.1.prev_tiles.length ≤ 5 :=
  (history_bounded activeDropper smallCanvas zeroRng).2.1 dropResult.1
    dropResult.2.1 dropResult.2.2 rfl

/-- Claim C7: the Drop Anchor Grid computed at driver setup has as column
anchors exactly the multiples of `tileWidth+colsep` in `[0, canvasWidth)`
and as row anchors exactly the multiples of `tileHeight+rowsep` in
`[0, canvasHeight - 5*(tileHeight+rowsep))`, and every dropper built by
setup carries exactly these anchor lists. -/
theorem anchor_grid_members (t0 : Tile) (theargs : Config) (rest : List Tile)
    (tl : List Tile) (r : RNG) (x y : Int) (ds : List TileDropper)
    (img : Canvas) (r' : RNG) (d : TileDropper)
    (htl : tl = t0 :: rest)
    (hcol : 0 < (t0.width : Int) + theargs.colsep)
    (hrow : 0 < (t0.height : Int) + theargs.rowsep)
    (hsetup : setupSim tl theargs r = .ok (ds, img, r'))
    (hd : d ∈ ds) :
    (x ∈ anchorCols t0 theargs ↔
      ((t0.width : Int) + theargs.colsep) ∣ x ∧ 0 ≤ x ∧ x < (theargs.width : Int)) ∧
    (y ∈ anchorRows t0 theargs ↔
      ((t0.height : Int) + theargs.rowsep) ∣ y ∧ 0 ≤ y ∧
        y < (theargs.height : Int) - 5 * ((t0.height : Int) + theargs.rowsep)) ∧
    d.thecols = anchorCols t0 theargs ∧ d.therows = anchorRows t0 theargs := by
  refine ⟨?_, ?_, ?_⟩
  · rw [anchorCols, mem_pyRange hcol]
    constructor
    · rintro ⟨k, rfl, hlt⟩
      refine ⟨⟨(k : Int), by ring⟩, ?_, by simpa using hlt⟩
      have := mul_nonneg (Int.natCast_nonneg k) hcol.le
      omega
    · rintro ⟨hdvd, h0, hlt⟩
      obtain ⟨k, hk⟩ := (multiples_iff hcol).mpr ⟨hdvd, h0⟩
      exact ⟨k, by omega, hlt⟩
  · rw [anchorRows, mem_pyRange hrow]
    constructor
    · rintro ⟨k, rfl, hlt⟩
      refine ⟨⟨(k : Int), by ring⟩, ?_, by simpa using hlt⟩
      have := mul_nonneg (Int.natCast_nonneg k) hrow.le
      omega
    · rintro ⟨hdvd, h0, hlt⟩
      obtain ⟨k, hk⟩ := (multiples_iff hrow).mpr ⟨hdvd, h0⟩
      exact ⟨k, by omega, hlt⟩
  · subst htl
    simp only [setupSim] at hsetup
    split at hsetup
    · exact absurd hsetup (by simp)
    · obtain ⟨h1, -⟩ := Prod.mk.injEq .. ▸ Except.ok.inj hsetup
      rw [← h1] at hd
      rw [List.eq_of_mem_replicate hd]
      exact ⟨rfl, rfl⟩

/-- Witness for `anchor_grid_members` on claim C2's configuration. -/
theorem anchor_grid_members_witness :
    ((16 : Int) ∈ anchorCols (whiteTile 16) cfgEmptyRows ↔
      (((whiteTile 16).width : Int) + cfgEmptyRows.colsep) ∣ 16 ∧ (0 : Int) ≤ 16 ∧
        (16 : Int) < (cfgEmptyRows.width : Int)) ∧
    ((0 : Int) ∈ anchorRows (whiteTile 16) cfgEmptyRows ↔
      (((whiteTile 16).height : Int) + cfgEmptyRows.rowsep) ∣ 0 ∧ (0 : Int) ≤ 0 ∧
        (0 : Int) < (cfgEmptyRows.height : Int) -
          5 * (((whiteTile 16).height : Int) + cfgEmptyRows.rowsep)) ∧
    dropperEmptyRows.thecols = anchorCols (whiteTile 16) cfgEmptyRows ∧
    dropperEmptyRows.therows = anchorRows (whiteTile 16) cfgEmptyRows :=
  anchor_grid_members (whiteTile 16) cfgEmptyRows (List.replicate 3 (whiteTile 16))
    tilesFour16 zeroRng 16 0 [dropperEmptyRows] setupEmptyRows.2.1
    setupEmptyRows.2.2 dropperEmptyRows rfl (by decide) (by decide) rfl
    (List.mem_singleton_self _)

/-- Claim C9: the `i`-th entry of the Frame Sequence produced by `run` is
exactly the canvas contents at the end of step `i` (snapshots are
independent copies, unaffected by later mutation), and that canvas state
does not depend on how many further frames the run is configured to
produce. -/
theorem frames_are_snapshots (tile_list : List Tile) (theargs : Config)
    (r : RNG) (frames : List Canvas) (i m : Nat)
    (hrun : run tile_list theargs r = .ok frames)
    (hi : i < frames.length) :
    frames.get? i = canvasAfterStep tile_list theargs r (i + 1) ∧
    canvasAfterStep tile_list { theargs with numframes := m } r (i + 1) =
      canvasAfterStep tile_list theargs r (i + 1) := by
  refine ⟨?_, rfl⟩
  simp only [run] at hrun
  split at hrun
  · exact absurd hrun (by simp)
  · rename_i d_list img r1 heq1
    split at hrun
    · exact absurd hrun (by simp)
    · rename_i img_list ds2 img2 r2 heq2
      split at hrun
      · exact absurd hrun (by simp)
      · rename_i f fs
        replace hrun : f :: fs = frames := Except.ok.inj hrun
        obtain ⟨ext, hext, hlenext, -, -⟩ :=
          simLoop_ok_struct _ _ _ _ _ _ _ _ _ heq2
        have hflen : frames.length = theargs.numframes := by
          rw [← hrun, hext]
          simpa using hlenext
        obtain ⟨m2, hnum⟩ : ∃ m2, theargs.numframes = (i + 1) + m2 :=
          ⟨theargs.numframes - (i + 1), by omega⟩
        rw [hnum, simLoop_add] at heq2
        cases h1 : simLoop (i + 1) d_list img r1 [] with
        | error e =>
            rw [h1] at heq2
            exact absurd heq2 (by simp)
        | ok x =>
            obtain ⟨fr1, ds1, img1c, rr1⟩ := x
            rw [h1] at heq2
            obtain ⟨ext1, hfr1, hlen1, -, hlast1⟩ :=
              simLoop_ok_struct _ _ _ _ _ _ _ _ _ h1
            obtain ⟨ext2, hfs2, -, -, -⟩ :=
              simLoop_ok_struct _ _ _ _ _ _ _ _ _ heq2
            have hfr1len : fr1.length = i + 1 := by
              rw [hfr1]
              simpa using hlen1
            have hgl : fr1.getLast? = some img1c := hlast1 (by omega)
            have hframes : frames = fr1 ++ ext2 := by rw [← hrun, hfs2]
            have hgets : frames.get? i = fr1.get? i := by
              rw [hframes]
              exact List.get?_append (by omega)
            have hget1 : fr1.get? i = some img1c := by
              rw [List.get?_eq_getElem?]
              have hlst := List.getLast?_eq_getElem? fr1
              rw [hfr1len] at hlst
              simp only [Nat.add_sub_cancel] at hlst
              rw [← hlst, hgl]
            rw [hgets, hget1]
            simp only [canvasAfterStep, heq1, h1]

/-- Witness for `frames_are_snapshots` on the small successful run. -/
theorem frames_are_snapshots_witness :
    framesSmallRun.get? 0 = canvasAfterStep tilesSmallRun cfgSmallRun zeroRng 1 ∧
    canvasAfterStep tilesSmallRun { cfgSmallRun with numframes := 99 } zeroRng 1 =
      canvasAfterStep tilesSmallRun cfgSmallRun zeroRng 1 :=
  frames_are_snapshots tilesSmallRun cfgSmallRun zeroRng framesSmallRun 0 99 rfl
    (by decide)

/-- Claim C10: a `drop()` that starts and ends in the ACTIVE state leaves
the horizontal coordinate of the drop location unchanged — only
`update_location` ever assigns a new column. -/
theorem column_fixed_while_active (d : TileDropper) (img : Canvas) (r : RNG)
    (x y x' y' : Int) (d' : TileDropper) (img' : Canvas) (r' : RNG)
    (hloc : d.curloc = some (x, y))
    (hok : d.drop_tile img r = .ok (d', img', r'))
    (hloc' : d'.curloc = some (x', y')) : x' = x := by
  simp only [TileDropper.drop_tile, hloc, reduceCtorEq, if_false] at hok
  split at hok
  · exact absurd hok (by simp)
  · split at hok
    · exact absurd hok (by simp)
    · obtain ⟨h1, -⟩ := Prod.mk.injEq .. ▸ Except.ok.inj hok
      rw [← h1] at hloc'
      split at hloc'
      · exact absurd hloc' (by simp)
      · exact ((Prod.mk.injEq .. ▸ Option.some.inj hloc').1).symm

/-- Witness for `column_fixed_while_active` on a concrete ACTIVE drop. -/
theorem column_fixed_while_active_witness :
    activeDropper.curloc = some (0, 2) ∧
    dropResult.1.curloc = some (0, 3) ∧ (0 : Int) = 0 :=
  ⟨rfl, rfl, column_fixed_while_active activeDropper smallCanvas zeroRng 0 2 0 3
    dropResult.1 dropResult.2.1 dropResult.2.2 rfl rfl rfl⟩

end GenPatrix
